import Mathlib

/-!
Shallow embedding of the grpc_pool connection pool (pool.go, mappool.go).

Connections are modelled as records carrying the pooling metadata the code
reads: the lastCalledTime stamp, the liveness-probe outcome of the underlying
conn (checkValid compares the conn state with Ready), and a numeric identity
for the underlying socket. Wall-clock reads (time.Now) become explicit now
arguments; the injected dial function becomes an explicit argument giving the
dialed client or a dial failure. Every operation returns, besides the new
pool state, the list of clients it closed, so closing behaviour is visible
to the theorems.
-/

/-- The IdleClient of pool.go: lastCalledTime plus what the code observes of
the underlying grpc conn (its liveness for checkValid, and its identity). -/
structure IdleClient where
  lastCalledTime : Int
  valid : Bool
  connId : Nat
deriving DecidableEq

/-- IdleClient.idleTimeout (pool.go): reports the client stale exactly when
lastCalledTime + idle is not strictly after now. -/
def IdleClient.idleTimeout (c : IdleClient) (idle now : Int) : Bool :=
  c.lastCalledTime + idle ≤ now

/-- IdleClient.updateLastCalledTime (pool.go): stamp lastCalledTime to now. -/
def IdleClient.updateLastCalledTime (c : IdleClient) (now : Int) : IdleClient :=
  { c with lastCalledTime := now }

/-- IdleClient.checkValid (pool.go): succeeds exactly when the conn state is
Ready (state == 2); modelled by the valid field. -/
def IdleClient.checkValid (c : IdleClient) : Bool := c.valid

/-- GRpcClientPool state (pool.go): idle slice, capacity, live count, idle
timeout. count and maxCount are Go ints, embedded as Int. -/
structure GRpcClientPool where
  pool : List IdleClient
  maxCount : Int
  count : Int
  idleTimeout : Int
deriving DecidableEq

/-- NewGRpcClientPool (pool.go): empty idle slice, count 0. -/
def NewGRpcClientPool (maxCount idleTimeout : Int) : GRpcClientPool :=
  { pool := [], maxCount := maxCount, count := 0, idleTimeout := idleTimeout }

/-- The guarded decrement of pool.go: if count > 0 then count decreases. -/
def guardedDec (n : Int) : Int := if 0 < n then n - 1 else n

/-- The stale-eviction loop at the top of GRpcClientPool.Get (pool.go lines
123-136): walk the idle slice from the front, close each stale client and
guardedly decrement count, stop at the first non-stale client. Returns the
remaining slice, the new count, and the closed clients in order. -/
def evictLoop (idle now : Int) : List IdleClient → Int → List IdleClient × Int × List IdleClient
  | [], cnt => ([], cnt, [])
  | c :: rest, cnt =>
    if c.idleTimeout idle now then
      let r := evictLoop idle now rest (guardedDec cnt)
      (r.1, r.2.1, c :: r.2.2)
    else (c :: rest, cnt, [])

/-- Outcome of GRpcClientPool.Get: a client, ERROR_MAX_CLIENT_COUNT, or the
error of the dial function propagated verbatim. -/
inductive GetResult
  | ok (c : IdleClient)
  | maxClient
  | dialError
deriving DecidableEq

/-- Result record of GRpcClientPool.Get: outcome, new pool state, closed
clients. -/
structure GetStep where
  res : GetResult
  state : GRpcClientPool
  closed : List IdleClient
deriving DecidableEq

/-- GRpcClientPool.Get (pool.go lines 119-157). First the stale-eviction
loop; then, if the idle slice is empty: fail with ERROR_MAX_CLIENT_COUNT
when count has reached maxCount, otherwise dial (dialRes none embeds a dial
failure), stamp the new client and increment count; if the idle slice is
non-empty, pop and return its front without touching count. -/
def GRpcClientPool.Get (p : GRpcClientPool) (now : Int) (dialRes : Option IdleClient) : GetStep :=
  match evictLoop p.idleTimeout now p.pool p.count with
  | ([], cnt, closed) =>
    if p.maxCount ≤ cnt then
      { res := .maxClient, state := { p with pool := [], count := cnt }, closed := closed }
    else
      match dialRes with
      | none => { res := .dialError, state := { p with pool := [], count := cnt }, closed := closed }
      | some c =>
        { res := .ok (c.updateLastCalledTime now),
          state := { p with pool := [], count := cnt + 1 }, closed := closed }
  | (c :: rest, cnt, closed) =>
    { res := .ok c, state := { p with pool := rest, count := cnt }, closed := closed }

/-- Errors of GRpcClientPool.Put. -/
inductive PutError
  | invalidClient
  | nilClient
deriving DecidableEq

/-- Result record of GRpcClientPool.Put. -/
structure PutStep where
  err : Option PutError
  state : GRpcClientPool
  closed : List IdleClient
deriving DecidableEq

/-- GRpcClientPool.Put (pool.go lines 160-180): nil argument yields
ERROR_NIL_CLIENT with no state change; a client failing checkValid is
closed, count guardedly decremented, ERROR_INVALID_CLIENT returned; a live
client is stamped to now and appended at the back of the idle slice. -/
def GRpcClientPool.Put (p : GRpcClientPool) (now : Int) (arg : Option IdleClient) : PutStep :=
  match arg with
  | none => { err := some .nilClient, state := p, closed := [] }
  | some c =>
    if c.checkValid then
      { err := none,
        state := { p with pool := p.pool ++ [c.updateLastCalledTime now] }, closed := [] }
    else
      { err := some .invalidClient,
        state := { p with count := guardedDec p.count }, closed := [c] }

/-- GRpcClientPool.DelErrorClient (pool.go lines 183-194): nil argument is a
no-op; otherwise close the client and guardedly decrement count, leaving the
idle slice alone. -/
def GRpcClientPool.DelErrorClient (p : GRpcClientPool) (arg : Option IdleClient) :
    GRpcClientPool × List IdleClient :=
  match arg with
  | none => (p, [])
  | some c => ({ p with count := guardedDec p.count }, [c])

/-- GRpcClientPool.Release (pool.go lines 196-207): close every client in the
idle slice, reset count to zero, empty the idle slice. -/
def GRpcClientPool.Release (p : GRpcClientPool) : GRpcClientPool × List IdleClient :=
  ({ p with pool := [], count := 0 }, p.pool)

/-- One pool operation of the public API, with its wall-clock argument where
the code reads time.Now, and the dial outcome for Get. -/
inductive Op
  | get (now : Int) (dialRes : Option IdleClient)
  | put (now : Int) (arg : Option IdleClient)
  | delErr (arg : Option IdleClient)
  | release
deriving DecidableEq

/-- The state transition of one operation. -/
def stepOp (p : GRpcClientPool) : Op → GRpcClientPool
  | .get now d => (p.Get now d).state
  | .put now a => (p.Put now a).state
  | .delErr a => (p.DelErrorClient a).1
  | .release => p.Release.1

/-- Run a sequence of operations. -/
def runOps (p : GRpcClientPool) (ops : List Op) : GRpcClientPool :=
  ops.foldl stepOp p

/-- The wall-clock stamp an operation reads, if it reads one. -/
def opTime : Op → Option Int
  | .get now _ => some now
  | .put now _ => some now
  | .delErr _ => none
  | .release => none

/-- The wall clock is monotone: every timestamped operation in the list
carries a time at least the running lower bound. -/
def TimesFrom : Int → List Op → Bool
  | _, [] => true
  | t, op :: rest =>
    match opTime op with
    | none => TimesFrom t rest
    | some u => decide (t ≤ u) && TimesFrom u rest

/-- The sequence of lastCalledTime stamps along the idle slice, front to
back. -/
def poolTimes (p : GRpcClientPool) : List Int :=
  p.pool.map (fun c => c.lastCalledTime)

/-- Invariant tying a pool state to a wall-clock lower bound t: the idle
slice is sorted by lastCalledTime ascending, and every stamp in it is at
most t. -/
def timeInv (t : Int) (p : GRpcClientPool) : Prop :=
  (poolTimes p).Pairwise (· ≤ ·) ∧ ∀ c ∈ p.pool, c.lastCalledTime ≤ t

/-- MapPool (mappool.go): the registry mapping addresses to pools, with the
shared configuration used to create missing pools. The Go map is embedded as
an association list with unique keys. -/
structure MapPool where
  pools : List (String × GRpcClientPool)
  maxCount : Int
  idleTimeout : Int
deriving DecidableEq

/-- MapPool.getPool (mappool.go lines 41-51): read-locked lookup; the error
branch for a missing key is embedded as none. -/
def MapPool.getPool (mp : MapPool) (addr : String) : Option GRpcClientPool :=
  mp.pools.lookup addr

/-- Error of MapPool.ReleasePool. -/
inductive MapPoolError
  | notFound
deriving DecidableEq

/-- MapPool.ReleasePool (mappool.go lines 64-77): lookup; on a miss return
the not-exist error with the registry untouched; on a hit delete the binding
under the write lock, then call Release on the removed pool (its closed
clients are returned). -/
def MapPool.ReleasePool (mp : MapPool) (addr : String) :
    Except MapPoolError Unit × MapPool × List IdleClient :=
  match mp.pools.lookup addr with
  | none => (.error .notFound, mp, [])
  | some p =>
    (.ok (), { mp with pools := mp.pools.filter (fun kv => kv.1 != addr) }, p.Release.2)

/-- Shared state of the registry race model: the map, with pool objects
represented by their allocation identity, plus the allocator counter that
gives each NewGRpcClientPool call a fresh identity. -/
structure RegWorld where
  pools : List (String × Nat)
  nextId : Nat
deriving DecidableEq

/-- Program counter of one thread running MapPool.GetPool. -/
inductive ThreadPC
  | start
  | missed
  | done
deriving DecidableEq

/-- One thread executing MapPool.GetPool addr (mappool.go lines 53-62),
decomposed at its lock boundaries: the read-locked lookup, then on a miss
the NewGRpcClientPool allocation followed by the write-locked insert. -/
structure GetPoolThread where
  addr : String
  pc : ThreadPC
  ret : Option Nat
deriving DecidableEq

/-- One atomic step of a GetPool thread. At start: the read-locked getPool
lookup; a hit returns the found pool, a miss falls through. At missed:
allocate a fresh pool object and store it with the write-locked map insert
(overwriting any binding for the key, as a Go map assignment does), and
return the freshly allocated pool. -/
def threadStep (w : RegWorld) (t : GetPoolThread) : RegWorld × GetPoolThread :=
  match t.pc with
  | .start =>
    match w.pools.lookup t.addr with
    | some pid => (w, { t with pc := .done, ret := some pid })
    | none => (w, { t with pc := .missed })
  | .missed =>
    ({ pools := (t.addr, w.nextId) :: w.pools.filter (fun kv => kv.1 != t.addr),
       nextId := w.nextId + 1 },
     { t with pc := .done, ret := some w.nextId })
  | .done => (w, t)

/-- Run two GetPool threads under an explicit schedule: true steps the first
thread, false the second. -/
def sched : RegWorld → GetPoolThread → GetPoolThread → List Bool →
    RegWorld × GetPoolThread × GetPoolThread
  | w, t1, t2, [] => (w, t1, t2)
  | w, t1, t2, b :: rest =>
    if b then
      let s := threadStep w t1
      sched s.1 s.2 t2 rest
    else
      let s := threadStep w t2
      sched s.1 t1 s.2 rest

/-! ## Helper lemmas on the guarded decrement and the eviction loop -/

/-- The guarded decrement never produces a negative count from a
non-negative one. -/
theorem guardedDec_nonneg (n : Int) (h : 0 ≤ n) : 0 ≤ guardedDec n := by
  unfold guardedDec
  split <;> omega

/-- The guarded decrement never increases the count. -/
theorem guardedDec_le (n : Int) : guardedDec n ≤ n := by
  unfold guardedDec
  split <;> omega

/-- The eviction loop leaves exactly the maximal non-stale suffix: its
remaining slice is dropWhile of the staleness test. -/
theorem evictLoop_pool_eq (idle now : Int) :
    ∀ (l : List IdleClient) (cnt : Int),
      (evictLoop idle now l cnt).1 = l.dropWhile (fun c => c.idleTimeout idle now)
  | [], _ => rfl
  | c :: rest, cnt => by
    by_cases hc : c.idleTimeout idle now
    · simp [evictLoop, hc, List.dropWhile_cons,
        evictLoop_pool_eq idle now rest (guardedDec cnt)]
    · simp [evictLoop, hc, List.dropWhile_cons]

/-- The eviction loop closes exactly the maximal stale run at the front:
its closed list is takeWhile of the staleness test. -/
theorem evictLoop_closed_eq (idle now : Int) :
    ∀ (l : List IdleClient) (cnt : Int),
      (evictLoop idle now l cnt).2.2 = l.takeWhile (fun c => c.idleTimeout idle now)
  | [], _ => rfl
  | c :: rest, cnt => by
    by_cases hc : c.idleTimeout idle now
    · simp [evictLoop, hc, List.takeWhile_cons,
        evictLoop_closed_eq idle now rest (guardedDec cnt)]
    · simp [evictLoop, hc, List.takeWhile_cons]

/-- The eviction loop decrements the count once per evicted client, but
clamped at zero. -/
theorem evictLoop_count_eq (idle now : Int) :
    ∀ (l : List IdleClient) (cnt : Int), 0 ≤ cnt →
      (evictLoop idle now l cnt).2.1 =
        max (cnt - (l.takeWhile (fun c => c.idleTimeout idle now)).length) 0
  | [], cnt, h => by
    simp [evictLoop]
    omega
  | c :: rest, cnt, h => by
    by_cases hc : c.idleTimeout idle now
    · have ih := evictLoop_count_eq idle now rest (guardedDec cnt) (guardedDec_nonneg cnt h)
      simp [evictLoop, hc, List.takeWhile_cons, ih]
      unfold guardedDec
      split <;> omega
    · simp [evictLoop, hc, List.takeWhile_cons]
      omega

/-- The count after eviction stays non-negative. -/
theorem evictLoop_count_nonneg (idle now : Int) (l : List IdleClient) (cnt : Int)
    (h : 0 ≤ cnt) : 0 ≤ (evictLoop idle now l cnt).2.1 := by
  rw [evictLoop_count_eq idle now l cnt h]
  omega

/-- The count after eviction never exceeds the count before. -/
theorem evictLoop_count_le (idle now : Int) (l : List IdleClient) (cnt : Int)
    (h : 0 ≤ cnt) : (evictLoop idle now l cnt).2.1 ≤ cnt := by
  rw [evictLoop_count_eq idle now l cnt h]
  omega

/-- Get closes exactly what the eviction loop closes. -/
theorem Get_closed_eq (p : GRpcClientPool) (now : Int) (d : Option IdleClient) :
    (p.Get now d).closed = (evictLoop p.idleTimeout now p.pool p.count).2.2 := by
  unfold GRpcClientPool.Get
  rcases he : evictLoop p.idleTimeout now p.pool p.count with ⟨pl, cnt, cl⟩
  cases pl with
  | nil =>
    by_cases hcap : p.maxCount ≤ cnt
    · simp [hcap]
    · cases d <;> simp [hcap]
  | cons c rest => simp

/-- The idle slice after Get is a sublist of the idle slice before. -/
theorem Get_pool_sublist (p : GRpcClientPool) (now : Int) (d : Option IdleClient) :
    List.Sublist (p.Get now d).state.pool p.pool := by
  unfold GRpcClientPool.Get
  rcases he : evictLoop p.idleTimeout now p.pool p.count with ⟨pl, cnt, cl⟩
  have hpl : pl = p.pool.dropWhile (fun c => c.idleTimeout p.idleTimeout now) := by
    have := evictLoop_pool_eq p.idleTimeout now p.pool p.count
    rw [he] at this
    exact this
  have hsub : List.Sublist pl p.pool := by
    rw [hpl]
    exact List.dropWhile_sublist _
  cases pl with
  | nil =>
    by_cases hcap : p.maxCount ≤ cnt
    · simp [hcap]
    · cases d <;> simp [hcap]
  | cons c rest =>
    simp only
    exact List.Sublist.trans (List.tail_sublist (c :: rest)) hsub

/-! ## Count invariant machinery (claim C1) -/

/-- One operation preserves the invariant that the live count sits between
zero and the (non-negative) capacity, and leaves the capacity unchanged. -/
theorem stepOp_count_inv (N : Int) (hN : 0 ≤ N) (p : GRpcClientPool) (op : Op)
    (h : p.maxCount = N ∧ 0 ≤ p.count ∧ p.count ≤ N) :
    (stepOp p op).maxCount = N ∧ 0 ≤ (stepOp p op).count ∧ (stepOp p op).count ≤ N := by
  obtain ⟨hm, h0, hle⟩ := h
  cases op with
  | get now d =>
    have hnn := evictLoop_count_nonneg p.idleTimeout now p.pool p.count h0
    have hl := evictLoop_count_le p.idleTimeout now p.pool p.count h0
    simp only [stepOp]
    unfold GRpcClientPool.Get
    rcases he : evictLoop p.idleTimeout now p.pool p.count with ⟨pl, cnt, cl⟩
    rw [he] at hnn hl
    simp only at hnn hl
    cases pl with
    | nil =>
      by_cases hcap : p.maxCount ≤ cnt
      · simp [hcap]
        all_goals omega
      · cases d with
        | none =>
          simp [hcap]
          all_goals omega
        | some c =>
          simp [hcap]
          all_goals omega
    | cons c rest =>
      simp
      all_goals omega
  | put now a =>
    cases a with
    | none => exact ⟨hm, h0, hle⟩
    | some c =>
      simp only [stepOp]
      unfold GRpcClientPool.Put
      by_cases hv : c.checkValid
      · simp only [hv, if_true]
        exact ⟨hm, h0, hle⟩
      · simp only [hv, if_false]
        exact ⟨hm, guardedDec_nonneg p.count h0, le_trans (guardedDec_le p.count) hle⟩
  | delErr a =>
    cases a with
    | none => exact ⟨hm, h0, hle⟩
    | some c =>
      exact ⟨hm, guardedDec_nonneg p.count h0, le_trans (guardedDec_le p.count) hle⟩
  | release =>
    exact ⟨hm, le_refl 0, hN⟩

/-- The count invariant is preserved along any operation sequence. -/
theorem runOps_count_inv (N : Int) (hN : 0 ≤ N) :
    ∀ (ops : List Op) (p : GRpcClientPool),
      (p.maxCount = N ∧ 0 ≤ p.count ∧ p.count ≤ N) →
      ((runOps p ops).maxCount = N ∧ 0 ≤ (runOps p ops).count ∧ (runOps p ops).count ≤ N)
  | [], _, h => h
  | op :: rest, p, h =>
    runOps_count_inv N hN rest (stepOp p op) (stepOp_count_inv N hN p op h)

/-! ## Idle-slice ordering machinery (claim C5) -/

/-- Put on a live client: stamp and append, nothing closed, no error. -/
theorem Put_some_valid (p : GRpcClientPool) (now : Int) (c : IdleClient)
    (hv : c.checkValid = true) :
    p.Put now (some c) =
      { err := none,
        state := { p with pool := p.pool ++ [c.updateLastCalledTime now] }, closed := [] } := by
  simp [GRpcClientPool.Put, hv]

/-- Put on a client failing the liveness probe: close it, guardedly
decrement the count, report the invalid-client error. -/
theorem Put_some_invalid (p : GRpcClientPool) (now : Int) (c : IdleClient)
    (hv : c.checkValid = false) :
    p.Put now (some c) =
      { err := some PutError.invalidClient,
        state := { p with count := guardedDec p.count }, closed := [c] } := by
  simp [GRpcClientPool.Put, hv]

/-- The wall-clock lower bound of the invariant can be relaxed upward. -/
theorem timeInv_mono (t u : Int) (htu : t ≤ u) (p : GRpcClientPool)
    (h : timeInv t p) : timeInv u p :=
  ⟨h.1, fun c hc => le_trans (h.2 c hc) htu⟩

/-- Get preserves the ordering invariant: it only drops entries from the
idle slice. -/
theorem Get_timeInv (p : GRpcClientPool) (now : Int) (d : Option IdleClient)
    (t : Int) (h : timeInv t p) : timeInv t (p.Get now d).state := by
  obtain ⟨hs, hb⟩ := h
  have hsub := Get_pool_sublist p now d
  exact ⟨hs.sublist (hsub.map _), fun c hc => hb c (hsub.subset hc)⟩

/-- Put at a time no earlier than every stamp in the pool preserves the
ordering invariant and bumps the bound to now. -/
theorem Put_timeInv (p : GRpcClientPool) (now : Int) (a : Option IdleClient)
    (t : Int) (htu : t ≤ now) (h : timeInv t p) : timeInv now (p.Put now a).state := by
  obtain ⟨hs, hb⟩ := h
  cases a with
  | none =>
    exact ⟨hs, fun c hc => le_trans (hb c hc) htu⟩
  | some c =>
    by_cases hv : c.checkValid
    · rw [Put_some_valid p now c hv]
      constructor
      · unfold poolTimes
        simp only [List.map_append]
        rw [List.pairwise_append]
        refine ⟨hs, ?_, ?_⟩
        · simp
        · intro x hx y hy
          simp only [List.map_cons, List.map_nil, List.mem_singleton] at hy
          rcases List.mem_map.mp hx with ⟨cc, hcc, rfl⟩
          have : y = now := by simpa [IdleClient.updateLastCalledTime] using hy
          rw [this]
          exact le_trans (hb cc hcc) htu
      · intro x hx
        rcases List.mem_append.mp hx with hx | hx
        · exact le_trans (hb x hx) htu
        · have : x = c.updateLastCalledTime now := by simpa using hx
          rw [this]
          exact le_of_eq rfl
    · have hvf : c.checkValid = false := by
        cases hcv : c.checkValid
        · rfl
        · exact absurd hcv hv
      rw [Put_some_invalid p now c hvf]
      exact ⟨hs, fun x hxm => le_trans (hb x hxm) htu⟩

/-- A clockless operation preserves the ordering invariant with its bound. -/
theorem stepOp_timeInv_none (t : Int) (p : GRpcClientPool) (op : Op)
    (hop : opTime op = none) (h : timeInv t p) : timeInv t (stepOp p op) := by
  cases op with
  | get now d => simp [opTime] at hop
  | put now a => simp [opTime] at hop
  | delErr a =>
    cases a with
    | none => exact h
    | some c => exact h
  | release =>
    exact ⟨List.Pairwise.nil, fun c hc => absurd hc (List.not_mem_nil c)⟩

/-- A clocked operation run at a time past the bound preserves the ordering
invariant, moving the bound to its time. -/
theorem stepOp_timeInv_some (t u : Int) (p : GRpcClientPool) (op : Op)
    (hop : opTime op = some u) (htu : t ≤ u) (h : timeInv t p) :
    timeInv u (stepOp p op) := by
  cases op with
  | get now d =>
    have hnow : now = u := by simpa [opTime] using hop
    subst hnow
    exact timeInv_mono t now htu _ (Get_timeInv p now d t h)
  | put now a =>
    have hnow : now = u := by simpa [opTime] using hop
    subst hnow
    exact Put_timeInv p now a t htu h
  | delErr a => simp [opTime] at hop
  | release => simp [opTime] at hop

/-- Unfolding equation for the monotone-clock predicate. -/
theorem TimesFrom_cons (t : Int) (op : Op) (rest : List Op) :
    TimesFrom t (op :: rest) =
      match opTime op with
      | none => TimesFrom t rest
      | some u => decide (t ≤ u) && TimesFrom u rest := rfl

/-- Along any monotone-clock operation sequence the ordering invariant is
maintained for some final bound. -/
theorem runOps_timeInv :
    ∀ (ops : List Op) (t : Int) (p : GRpcClientPool),
      timeInv t p → TimesFrom t ops = true → ∃ u, timeInv u (runOps p ops)
  | [], t, p, h, _ => ⟨t, h⟩
  | op :: rest, t, p, h, hm => by
    have hrun : runOps p (op :: rest) = runOps (stepOp p op) rest := rfl
    rw [hrun]
    cases hop : opTime op with
    | none =>
      rw [TimesFrom_cons, hop] at hm
      exact runOps_timeInv rest t (stepOp p op) (stepOp_timeInv_none t p op hop h) hm
    | some u =>
      rw [TimesFrom_cons, hop] at hm
      have hm2 : (t ≤ u) ∧ TimesFrom u rest = true := by
        simpa [Bool.and_eq_true, decide_eq_true_iff] using hm
      exact runOps_timeInv rest u (stepOp p op)
        (stepOp_timeInv_some t u p op hop hm2.1 h) hm2.2

/-! ## Claim theorems -/

/-- Claim C1: for every finite sequence of Get, Put, DelErrorClient and
Release operations on a pool constructed with capacity N > 0, the live
count satisfies 0 ≤ count ≤ N after every operation. -/
theorem C1_count_within_capacity (N T : Int) (ops : List Op) (hN : 0 < N) :
    0 ≤ (runOps (NewGRpcClientPool N T) ops).count ∧
      (runOps (NewGRpcClientPool N T) ops).count ≤ N := by
  have h := runOps_count_inv N (le_of_lt hN) ops (NewGRpcClientPool N T)
    ⟨rfl, le_refl 0, le_of_lt hN⟩
  exact ⟨h.2.1, h.2.2⟩

/-- Witness for C1 at capacity 2 and a concrete operation sequence. -/
theorem C1_count_within_capacity_witness :
    (0 : Int) < 2 ∧
      (0 ≤ (runOps (NewGRpcClientPool 2 10)
              [Op.put 0 (some ⟨0, true, 0⟩), Op.get 5 none, Op.release]).count ∧
        (runOps (NewGRpcClientPool 2 10)
              [Op.put 0 (some ⟨0, true, 0⟩), Op.get 5 none, Op.release]).count ≤ 2) :=
  ⟨by decide,
   C1_count_within_capacity 2 10
     [Op.put 0 (some ⟨0, true, 0⟩), Op.get 5 none, Op.release] (by decide)⟩

/-- Counterexample to claim C2 as stated: on a pool constructed with
maxCount = 0 the claim says Get never fails with ERROR_MAX_CLIENT_COUNT
(zero meaning unbounded), but pool.go line 139 compares count >= maxCount
with no positivity exemption, so a fresh Get fails with
ERROR_MAX_CLIENT_COUNT even though a dialable client is available. -/
theorem C2_counterexample :
    (NewGRpcClientPool 0 10).maxCount = 0 ∧
      (GRpcClientPool.Get (NewGRpcClientPool 0 10) 0 (some ⟨0, true, 0⟩)).res =
        GetResult.maxClient := by
  decide

/-- Claim C2 amended: Get fails with ERROR_MAX_CLIENT_COUNT exactly when,
after stale eviction, the idle set is empty and the evicted count has
reached maxCount — with no exemption for maxCount ≤ 0, so a non-positive
maxCount means a Get that finds the idle set empty always fails; on this
failure no connection is created and the count and idle set keep exactly
their post-eviction values. -/
theorem C2_capacity_error_iff (p : GRpcClientPool) (now : Int) (d : Option IdleClient) :
    ((p.Get now d).res = GetResult.maxClient ↔
      (evictLoop p.idleTimeout now p.pool p.count).1 = [] ∧
        p.maxCount ≤ (evictLoop p.idleTimeout now p.pool p.count).2.1) ∧
    ((p.Get now d).res = GetResult.maxClient →
      (p.Get now d).state.pool = (evictLoop p.idleTimeout now p.pool p.count).1 ∧
      (p.Get now d).state.count = (evictLoop p.idleTimeout now p.pool p.count).2.1 ∧
      (p.Get now d).closed = (evictLoop p.idleTimeout now p.pool p.count).2.2) := by
  unfold GRpcClientPool.Get
  rcases he : evictLoop p.idleTimeout now p.pool p.count with ⟨pl, cnt, cl⟩
  cases pl with
  | nil =>
    by_cases hcap : p.maxCount ≤ cnt
    · simp [hcap]
    · cases d <;> simp [hcap]
  | cons c rest =>
    simp

/-- Witness for C2 on a full pool of capacity 1: the capacity condition
holds after eviction, so Get reports ERROR_MAX_CLIENT_COUNT. -/
theorem C2_capacity_error_iff_witness :
    (GRpcClientPool.Get
        { pool := [], maxCount := 1, count := 1, idleTimeout := 10 } 0 none).res =
      GetResult.maxClient :=
  (C2_capacity_error_iff
      { pool := [], maxCount := 1, count := 1, idleTimeout := 10 } 0 none).1.mpr
    (by decide)

/-- Counterexample to claim C3 as stated, on a state reached by Put on a
fresh pool (count 0, one idle client stamped at 0). At now = 10 with idle
timeout 10 the entry age equals the timeout and does not exceed it, yet Get
evicts and closes it; and the eviction leaves count at 0 rather than
decrementing once per evicted entry, which would give -1. -/
theorem C3_counterexample :
    (GRpcClientPool.Put (NewGRpcClientPool 5 10) 0 (some ⟨3, true, 7⟩)).state =
        { pool := [⟨0, true, 7⟩], maxCount := 5, count := 0, idleTimeout := 10 } ∧
      ¬ ((10 : Int) - 0 > 10) ∧
      (GRpcClientPool.Get
          { pool := [⟨0, true, 7⟩], maxCount := 5, count := 0, idleTimeout := 10 }
          10 none).closed = [⟨0, true, 7⟩] ∧
      (GRpcClientPool.Get
          { pool := [⟨0, true, 7⟩], maxCount := 5, count := 0, idleTimeout := 10 }
          10 none).state.count = 0 ∧
      ((0 : Int) ≠ 0 - 1) := by
  decide

/-- Claim C3 amended: every Get first evicts exactly the maximal stale
front run of the idle set — an entry is stale when its age is at least
(not strictly greater than) the idle timeout — closing exactly those
entries, keeping exactly the entries from the first non-stale one on, and
decrementing count once per evicted entry but clamped at zero. -/
theorem C3_evicts_maximal_stale_run (p : GRpcClientPool) (now : Int)
    (d : Option IdleClient) (h : 0 ≤ p.count) :
    (p.Get now d).closed =
        p.pool.takeWhile (fun c => c.idleTimeout p.idleTimeout now) ∧
      (evictLoop p.idleTimeout now p.pool p.count).1 =
        p.pool.dropWhile (fun c => c.idleTimeout p.idleTimeout now) ∧
      (evictLoop p.idleTimeout now p.pool p.count).2.1 =
        max (p.count -
          (p.pool.takeWhile (fun c => c.idleTimeout p.idleTimeout now)).length) 0 := by
  refine ⟨?_, ?_, ?_⟩
  · rw [Get_closed_eq p now d]
    exact evictLoop_closed_eq p.idleTimeout now p.pool p.count
  · exact evictLoop_pool_eq p.idleTimeout now p.pool p.count
  · exact evictLoop_count_eq p.idleTimeout now p.pool p.count h

/-- Witness for C3 on a pool holding one stale and one fresh client. -/
theorem C3_evicts_maximal_stale_run_witness :
    (0 : Int) ≤ 2 ∧
      ((GRpcClientPool.Get
          { pool := [⟨0, true, 1⟩, ⟨95, true, 2⟩], maxCount := 5, count := 2,
            idleTimeout := 10 } 100 none).closed =
        List.takeWhile (fun c => c.idleTimeout 10 100)
          ([⟨0, true, 1⟩, ⟨95, true, 2⟩] : List IdleClient) ∧
      (evictLoop 10 100 [⟨0, true, 1⟩, ⟨95, true, 2⟩] 2).1 =
        List.dropWhile (fun c => c.idleTimeout 10 100)
          ([⟨0, true, 1⟩, ⟨95, true, 2⟩] : List IdleClient) ∧
      (evictLoop 10 100 [⟨0, true, 1⟩, ⟨95, true, 2⟩] 2).2.1 =
        max (2 - (List.takeWhile (fun c => c.idleTimeout 10 100)
          ([⟨0, true, 1⟩, ⟨95, true, 2⟩] : List IdleClient)).length) 0) :=
  ⟨by decide,
   C3_evicts_maximal_stale_run
     { pool := [⟨0, true, 1⟩, ⟨95, true, 2⟩], maxCount := 5, count := 2,
       idleTimeout := 10 } 100 none (by decide)⟩

/-- Counterexample to claim C4 as stated: on a fresh pool (count 0), Put of
a non-nil client whose liveness probe fails leaves count at 0; the claimed
decrease by exactly one would give -1. The decrement in pool.go lines
170-172 is guarded by count > 0. -/
theorem C4_counterexample :
    (NewGRpcClientPool 5 10).count = 0 ∧
      ((NewGRpcClientPool 5 10).Put 0 (some ⟨0, false, 0⟩)).state.count = 0 ∧
      ((0 : Int) ≠ (NewGRpcClientPool 5 10).count - 1) := by
  decide

/-- Claim C4 amended: for every Put of a non-nil client whose liveness
probe reports not live, the client is closed and not added to the idle set,
the idle set is unchanged, ERROR_INVALID_CLIENT is returned, and the count
decreases by one clamped at zero. -/
theorem C4_invalid_put (p : GRpcClientPool) (now : Int) (c : IdleClient)
    (hv : c.checkValid = false) (hc : 0 ≤ p.count) :
    (p.Put now (some c)).err = some PutError.invalidClient ∧
      (p.Put now (some c)).closed = [c] ∧
      (p.Put now (some c)).state.pool = p.pool ∧
      (p.Put now (some c)).state.count = max (p.count - 1) 0 := by
  rw [Put_some_invalid p now c hv]
  refine ⟨rfl, rfl, rfl, ?_⟩
  show guardedDec p.count = max (p.count - 1) 0
  unfold guardedDec
  split <;> omega

/-- Witness for C4 on a pool with live count 3. -/
theorem C4_invalid_put_witness :
    (⟨1, false, 9⟩ : IdleClient).checkValid = false ∧
      (0 : Int) ≤ 3 ∧
      ((GRpcClientPool.Put
          { pool := [], maxCount := 5, count := 3, idleTimeout := 10 }
          7 (some ⟨1, false, 9⟩)).err = some PutError.invalidClient ∧
        (GRpcClientPool.Put
          { pool := [], maxCount := 5, count := 3, idleTimeout := 10 }
          7 (some ⟨1, false, 9⟩)).closed = [⟨1, false, 9⟩] ∧
        (GRpcClientPool.Put
          { pool := [], maxCount := 5, count := 3, idleTimeout := 10 }
          7 (some ⟨1, false, 9⟩)).state.pool = [] ∧
        (GRpcClientPool.Put
          { pool := [], maxCount := 5, count := 3, idleTimeout := 10 }
          7 (some ⟨1, false, 9⟩)).state.count = max (3 - 1) 0) :=
  ⟨by decide, by decide,
   C4_invalid_put { pool := [], maxCount := 5, count := 3, idleTimeout := 10 }
     7 ⟨1, false, 9⟩ (by decide) (by decide)⟩

/-- Claim C5: along any operation sequence whose wall-clock readings are
monotone, the idle slice of the resulting pool is ordered by lastCalledTime
ascending, oldest-returned first. -/
theorem C5_idle_slice_sorted (N T t0 : Int) (ops : List Op)
    (h : TimesFrom t0 ops = true) :
    (poolTimes (runOps (NewGRpcClientPool N T) ops)).Pairwise (· ≤ ·) := by
  obtain ⟨u, hu⟩ := runOps_timeInv ops t0 (NewGRpcClientPool N T)
    ⟨List.Pairwise.nil, fun c hc => absurd hc (List.not_mem_nil c)⟩ h
  exact hu.1

/-- Witness for C5 on two Puts at increasing times, the second client
carrying an older stamp that Put overwrites. -/
theorem C5_idle_slice_sorted_witness :
    TimesFrom 0 [Op.put 1 (some ⟨9, true, 0⟩), Op.put 2 (some ⟨0, true, 1⟩)] = true ∧
      (poolTimes (runOps (NewGRpcClientPool 5 100)
        [Op.put 1 (some ⟨9, true, 0⟩), Op.put 2 (some ⟨0, true, 1⟩)])).Pairwise (· ≤ ·) :=
  ⟨by decide,
   C5_idle_slice_sorted 5 100 0
     [Op.put 1 (some ⟨9, true, 0⟩), Op.put 2 (some ⟨0, true, 1⟩)] (by decide)⟩

/-- Claim C6: Release closes every idle client, zeroes the count and
empties the idle set, and a second Release is a no-op on the resulting
empty state: same state, nothing closed, no negative count. -/
theorem C6_release_idempotent (p : GRpcClientPool) :
    p.Release.1.count = 0 ∧ p.Release.1.pool = [] ∧ p.Release.2 = p.pool ∧
      p.Release.1.Release.1 = p.Release.1 ∧ p.Release.1.Release.2 = [] :=
  ⟨rfl, rfl, rfl, rfl, rfl⟩

/-- Claim C7: DelErrorClient on a (non-nil) connection closes it and sets
the count to max(count - 1, 0), leaving the idle set unchanged. -/
theorem C7_del_error_client (p : GRpcClientPool) (c : IdleClient)
    (h : 0 ≤ p.count) :
    (p.DelErrorClient (some c)).2 = [c] ∧
      (p.DelErrorClient (some c)).1.pool = p.pool ∧
      (p.DelErrorClient (some c)).1.count = max (p.count - 1) 0 := by
  refine ⟨rfl, rfl, ?_⟩
  show guardedDec p.count = max (p.count - 1) 0
  unfold guardedDec
  split <;> omega

/-- Witness for C7 on a pool with live count 2 and one idle client. -/
theorem C7_del_error_client_witness :
    (0 : Int) ≤ 2 ∧
      ((GRpcClientPool.DelErrorClient
          { pool := [⟨0, true, 1⟩], maxCount := 5, count := 2, idleTimeout := 10 }
          (some ⟨4, false, 9⟩)).2 = [⟨4, false, 9⟩] ∧
        (GRpcClientPool.DelErrorClient
          { pool := [⟨0, true, 1⟩], maxCount := 5, count := 2, idleTimeout := 10 }
          (some ⟨4, false, 9⟩)).1.pool = [⟨0, true, 1⟩] ∧
        (GRpcClientPool.DelErrorClient
          { pool := [⟨0, true, 1⟩], maxCount := 5, count := 2, idleTimeout := 10 }
          (some ⟨4, false, 9⟩)).1.count = max (2 - 1) 0) :=
  ⟨by decide,
   C7_del_error_client
     { pool := [⟨0, true, 1⟩], maxCount := 5, count := 2, idleTimeout := 10 }
     ⟨4, false, 9⟩ (by decide)⟩

/-- Claim C8 evidence: interleaving two first-time GetPool calls for the
same address on an empty registry at their lock boundaries — both
read-locked lookups miss before either write-locked insert runs — makes
each caller allocate and return its own pool: the first caller gets object
0, the second object 1, the creation path runs twice (nextId 2), and the
registry ends up holding object 1 while caller one holds the orphaned
object 0. This contradicts the claim that both callers get the same
instance with creation running effectively once. -/
theorem C8_concurrent_getpool_race :
    (sched { pools := [], nextId := 0 }
        { addr := "a", pc := ThreadPC.start, ret := none }
        { addr := "a", pc := ThreadPC.start, ret := none }
        [true, false, true, false]).2.1.ret = some 0 ∧
      (sched { pools := [], nextId := 0 }
        { addr := "a", pc := ThreadPC.start, ret := none }
        { addr := "a", pc := ThreadPC.start, ret := none }
        [true, false, true, false]).2.2.ret = some 1 ∧
      ((some 0 : Option Nat) ≠ some 1) ∧
      (sched { pools := [], nextId := 0 }
        { addr := "a", pc := ThreadPC.start, ret := none }
        { addr := "a", pc := ThreadPC.start, ret := none }
        [true, false, true, false]).1.nextId = 2 ∧
      (sched { pools := [], nextId := 0 }
        { addr := "a", pc := ThreadPC.start, ret := none }
        { addr := "a", pc := ThreadPC.start, ret := none }
        [true, false, true, false]).1.pools.lookup "a" = some 1 := by
  decide

/-- Lookup of a key misses after every binding for it is filtered out. -/
theorem lookup_filter_ne (a : String) :
    ∀ l : List (String × GRpcClientPool),
      (l.filter (fun kv => kv.1 != a)).lookup a = none
  | [] => rfl
  | kv :: rest => by
    by_cases h : kv.1 = a
    · simp [List.filter_cons, h, lookup_filter_ne a rest]
    · have h2 : (a == kv.1) = false := beq_eq_false_iff_ne.mpr (fun e => h e.symm)
      simp [List.filter_cons, h, List.lookup, h2, lookup_filter_ne a rest]

/-- Claim C9: ReleasePool of an unregistered address fails with the
not-exist error and leaves the registry unchanged; otherwise it removes the
binding — a later lookup for that address misses — and calls Release on
the removed pool, closing its idle clients. -/
theorem C9_release_pool (mp : MapPool) (addr : String) :
    (mp.pools.lookup addr = none →
      mp.ReleasePool addr = (Except.error MapPoolError.notFound, mp, [])) ∧
    (∀ p, mp.pools.lookup addr = some p →
      (mp.ReleasePool addr).1 = Except.ok () ∧
        ((mp.ReleasePool addr).2.1).pools =
          mp.pools.filter (fun kv => kv.1 != addr) ∧
        ((mp.ReleasePool addr).2.1).pools.lookup addr = none ∧
        (mp.ReleasePool addr).2.2 = p.Release.2) := by
  constructor
  · intro h
    simp [MapPool.ReleasePool, h]
  · intro p hp
    simp [MapPool.ReleasePool, hp, lookup_filter_ne, GRpcClientPool.Release]

/-- Witness for C9: a registry holding one pool under key a, released once
under the missing key b and once under a. -/
theorem C9_release_pool_witness :
    (MapPool.ReleasePool
        { pools := [("a", NewGRpcClientPool 1 10)], maxCount := 1, idleTimeout := 10 } "b" =
      (Except.error MapPoolError.notFound,
        { pools := [("a", NewGRpcClientPool 1 10)], maxCount := 1, idleTimeout := 10 }, [])) ∧
      ((MapPool.ReleasePool
          { pools := [("a", NewGRpcClientPool 1 10)], maxCount := 1, idleTimeout := 10 }
          "a").1 = Except.ok () ∧
        ((MapPool.ReleasePool
          { pools := [("a", NewGRpcClientPool 1 10)], maxCount := 1, idleTimeout := 10 }
          "a").2.1).pools =
          ([("a", NewGRpcClientPool 1 10)] : List (String × GRpcClientPool)).filter
            (fun kv => kv.1 != "a") ∧
        ((MapPool.ReleasePool
          { pools := [("a", NewGRpcClientPool 1 10)], maxCount := 1, idleTimeout := 10 }
          "a").2.1).pools.lookup "a" = none ∧
        (MapPool.ReleasePool
          { pools := [("a", NewGRpcClientPool 1 10)], maxCount := 1, idleTimeout := 10 }
          "a").2.2 = (NewGRpcClientPool 1 10).Release.2) :=
  ⟨(C9_release_pool
      { pools := [("a", NewGRpcClientPool 1 10)], maxCount := 1, idleTimeout := 10 }
      "b").1 (by decide),
   (C9_release_pool
      { pools := [("a", NewGRpcClientPool 1 10)], maxCount := 1, idleTimeout := 10 }
      "a").2 (NewGRpcClientPool 1 10) (by decide)⟩

/-- Claim C10: Put of a live client never changes the count or the
capacity, only stamps the client and appends it to the idle set — there is
no capacity check in Put — and therefore Puts of clients not obtained from
Get grow the idle set past maxCount while count stays put: three Puts on a
fresh pool of capacity 1 leave count 0 and an idle set of length 3. -/
theorem C10_put_success_frame (p : GRpcClientPool) (now : Int) (c : IdleClient)
    (hv : c.checkValid = true) :
    ((p.Put now (some c)).err = none ∧
      (p.Put now (some c)).state.count = p.count ∧
      (p.Put now (some c)).state.maxCount = p.maxCount ∧
      (p.Put now (some c)).state.pool = p.pool ++ [c.updateLastCalledTime now]) ∧
    ((runOps (NewGRpcClientPool 1 100)
        [Op.put 0 (some ⟨0, true, 0⟩), Op.put 1 (some ⟨0, true, 1⟩),
          Op.put 2 (some ⟨0, true, 2⟩)]).pool.length = 3 ∧
      (runOps (NewGRpcClientPool 1 100)
        [Op.put 0 (some ⟨0, true, 0⟩), Op.put 1 (some ⟨0, true, 1⟩),
          Op.put 2 (some ⟨0, true, 2⟩)]).count = 0 ∧
      (runOps (NewGRpcClientPool 1 100)
        [Op.put 0 (some ⟨0, true, 0⟩), Op.put 1 (some ⟨0, true, 1⟩),
          Op.put 2 (some ⟨0, true, 2⟩)]).maxCount = 1) := by
  refine ⟨?_, by decide⟩
  rw [Put_some_valid p now c hv]
  exact ⟨rfl, rfl, rfl, rfl⟩

/-- Witness for C10 on a capacity-1 pool already holding one idle client. -/
theorem C10_put_success_frame_witness :
    (⟨5, true, 3⟩ : IdleClient).checkValid = true ∧
      (((GRpcClientPool.Put
          { pool := [⟨1, true, 0⟩], maxCount := 1, count := 0, idleTimeout := 10 }
          9 (some ⟨5, true, 3⟩)).err = none ∧
        (GRpcClientPool.Put
          { pool := [⟨1, true, 0⟩], maxCount := 1, count := 0, idleTimeout := 10 }
          9 (some ⟨5, true, 3⟩)).state.count = 0 ∧
        (GRpcClientPool.Put
          { pool := [⟨1, true, 0⟩], maxCount := 1, count := 0, idleTimeout := 10 }
          9 (some ⟨5, true, 3⟩)).state.maxCount = 1 ∧
        (GRpcClientPool.Put
          { pool := [⟨1, true, 0⟩], maxCount := 1, count := 0, idleTimeout := 10 }
          9 (some ⟨5, true, 3⟩)).state.pool =
          [⟨1, true, 0⟩] ++ [IdleClient.updateLastCalledTime ⟨5, true, 3⟩ 9]) ∧
      ((runOps (NewGRpcClientPool 1 100)
          [Op.put 0 (some ⟨0, true, 0⟩), Op.put 1 (some ⟨0, true, 1⟩),
            Op.put 2 (some ⟨0, true, 2⟩)]).pool.length = 3 ∧
        (runOps (NewGRpcClientPool 1 100)
          [Op.put 0 (some ⟨0, true, 0⟩), Op.put 1 (some ⟨0, true, 1⟩),
            Op.put 2 (some ⟨0, true, 2⟩)]).count = 0 ∧
        (runOps (NewGRpcClientPool 1 100)
          [Op.put 0 (some ⟨0, true, 0⟩), Op.put 1 (some ⟨0, true, 1⟩),
            Op.put 2 (some ⟨0, true, 2⟩)]).maxCount = 1)) :=
  ⟨by decide,
   C10_put_success_frame
     { pool := [⟨1, true, 0⟩], maxCount := 1, count := 0, idleTimeout := 10 }
     9 ⟨5, true, 3⟩ (by decide)⟩
